import Mathlib

/-!
# pg_shardman, `src/shard.c`: the move-partition scheduler and its command adapters

A shallow embedding of `shard.c`.  C structs become structures, the pointer
`MoveMPartState *mmps` that a function fills becomes a value passed in and
returned, and everything a function does to the outside (metadata lookups, clock
reads, libpq calls, status updates) is recorded in a `World`: the number of
`clock_gettime` calls made so far and the list of external calls in the order
they happened.  A function whose execution ends in `shmn_elog(FATAL, ...)`
returns `none` (see `shmn_elog_fatal`); otherwise it returns `some` of its result
and the new world.  Log calls below `FATAL` have no effect on control flow or
data and are left out.
-/

namespace Shardman

/-! ## Data model -/

/-- The C `struct timespec`: seconds and nanoseconds. -/
structure Timespec where
  tv_sec : Int
  tv_nsec : Int
deriving DecidableEq, Repr

/-- The enum `MoveMPartResult` of `shard.c`. -/
inductive MoveMPartResult where
  | MOVEMPART_IN_PROGRESS
  | MOVEMPART_FAILED
  | MOVEMPART_SUCCESS
deriving DecidableEq, Repr

/-- The enum `ExecMoveMPartRes` of `shard.c`: what one run of the state machine asks for. -/
inductive ExecMoveMPartRes where
  | EXECMOVEMPART_EPOLL
  | EXECMOVEMPART_WAKEMEUP
  | EXECMOVEMPART_DONE
deriving DecidableEq, Repr

/-- The struct `MoveMPartState` of `shard.c`.  A connection string is `none` when the C
pointer is `NULL`. -/
structure MoveMPartState where
  part_name : String
  src_node : Int
  dst_node : Int
  src_connstr : Option String
  dst_connstr : Option String
  waketm : Timespec
  fd_to_epoll : Int
  fd_in_epoll_set : Int
  result : MoveMPartResult
deriving DecidableEq, Repr

/-- The command record `Cmd` consumed by the adapters: an id and its option strings. -/
structure Cmd where
  id : Int
  opts : List String
deriving DecidableEq, Repr

/-- One call that leaves `shard.c`, as recorded in the trace of a `World`. -/
inductive Event where
  | get_partition_owner (part_name : String)
  | get_worker_node_connstr (node_id : Int)
  | clock_gettime
  | epoll_create1
  | update_cmd_status (id : Int) (status : String)
  | void_spi_table_exists (relation : String)
  | PQconnectdb (connstr : String)
  | PQexec
  | PQclear
  | PQfinish
  | void_spi_insert_and_mark_success (id : Int)
  | pg_usleep
  | check_for_sigterm
  | cmd_canceled (id : Int)
deriving DecidableEq, Repr

/-- What the functions have done to the outside so far: how many times the clock has been
read, and the external calls made, oldest first. -/
structure World where
  clock_reads : Nat
  trace : List Event
deriving DecidableEq, Repr

/-- The outside of `shard.c` as seen by the move-partition code: cluster metadata, the
monotonic clock (the reading returned by the k-th call of `clock_gettime`, `none` when the
call returns -1) and the return value of `epoll_create1`. -/
structure Env where
  get_partition_owner : String → Int
  get_worker_node_connstr : Int → Option String
  clock : Nat → Option Timespec
  epoll_create1 : Int

/-- Append one external call to the trace. -/
def World.log (w : World) (e : Event) : World :=
  { w with trace := w.trace ++ [e] }

/-- Modelled from the spec: the macro `shmn_elog` is not among the sources.  The spec says
that fatal internal errors (clock failure, inability to create the readiness facility)
abort the whole scheduler, with no degraded mode: a call at level `FATAL` does not return,
and the function that makes it yields no result. -/
@[simp] def shmn_elog_fatal {α : Type} : Option α := none

/-- One call of `clock_gettime(CLOCK_MONOTONIC, &t)`: `none` when the call returns -1,
otherwise the reading and the world with one more read recorded. -/
def clock_gettime (env : Env) (w : World) : Option (Timespec × World) :=
  match env.clock w.clock_reads with
  | none => none
  | some t =>
    some (t, { clock_reads := w.clock_reads + 1, trace := w.trace ++ [Event.clock_gettime] })

/-! ## Clock utilities (`timeutils.h`) -/

/-- Modelled from the spec: `timeutils.h` is not among the sources.  The spec names a
"monotonic time comparison"; `shard.c` uses `timespeccmp(a, b) >= 0` for "a is not earlier
than b", so the comparison is three-way: negative, zero or positive as `a` is earlier than,
equal to or later than `b`, seconds first and nanoseconds second. -/
def timespeccmp (a b : Timespec) : Int :=
  if a.tv_sec = b.tv_sec then
    (if a.tv_nsec < b.tv_nsec then -1 else if a.tv_nsec > b.tv_nsec then 1 else 0)
  else if a.tv_sec < b.tv_sec then -1
  else 1

/-- A value reduced to the range of a C `int` (32 bits, two's complement). -/
def wrap32 (x : Int) : Int :=
  (x + 2147483648) % 4294967296 - 2147483648

/-- Modelled from the spec: `timeutils.h` is not among the sources.  The spec names a
"millisecond-difference computation"; `shard.c` stores the value in an `int`.  The
difference `t1 - t2` in whole milliseconds, rounded towards zero as C division does, as a
C `int`. -/
def timespec_diff_millis (t1 t2 : Timespec) : Int :=
  wrap32 ((t1.tv_sec - t2.tv_sec) * 1000 + Int.tdiv (t1.tv_nsec - t2.tv_nsec) 1000000)

/-- Time order on clock readings: `a` is not later than `b`. -/
def Timespec.le (a b : Timespec) : Prop :=
  a.tv_sec < b.tv_sec ∨ (a.tv_sec = b.tv_sec ∧ a.tv_nsec ≤ b.tv_nsec)

instance (a b : Timespec) : Decidable (Timespec.le a b) := by
  unfold Timespec.le; infer_instance

/-! ## `calc_timeout` -/

/-- The `slist_foreach` loop of `calc_timeout`, started with the local `timeout` holding the
given value.  Each visited task costs one clock read; a failed read is `FATAL`. -/
def calc_timeout_loop (env : Env) : List MoveMPartState → Int → World → Option (Int × World)
  | [], timeout, w => some (timeout, w)
  | mmps :: rest, timeout, w =>
    match clock_gettime env w with
    | none => shmn_elog_fatal
    | some (curtm, w1) =>
      if timespeccmp curtm mmps.waketm ≥ 0 then
        some (0, w1)
      else
        let diff := max 0 (timespec_diff_millis mmps.waketm curtm)
        if timeout = -1 then
          calc_timeout_loop env rest diff w1
        else
          calc_timeout_loop env rest (min timeout diff) w1

/-- The function `calc_timeout` of `shard.c`: the number of milliseconds to wait in epoll, over
the list of sleeping tasks; -1 means "do not wake". -/
def calc_timeout (env : Env) (timeout_states : List MoveMPartState) (w : World) :
    Option (Int × World) :=
  calc_timeout_loop env timeout_states (-1) w

/-! ## `init_mmp_state` -/

/-- The function `init_mmp_state` of `shard.c`.  `mmps` is the memory the caller allocated
(its fields hold whatever `palloc` left there); the result is that memory after the call. -/
def init_mmp_state (env : Env) (mmps : MoveMPartState) (part_name : String) (dst_node : Int)
    (w : World) : Option (MoveMPartState × World) :=
  let mmps1 := { mmps with part_name := part_name }
  let mmps2 := { mmps1 with src_node := env.get_partition_owner part_name }
  let w1 := w.log (Event.get_partition_owner part_name)
  if mmps2.src_node = -1 then
    some ({ mmps2 with result := MoveMPartResult.MOVEMPART_FAILED }, w1)
  else
    let mmps3 := { mmps2 with dst_node := dst_node }
    let mmps4 := { mmps3 with src_connstr := env.get_worker_node_connstr mmps3.src_node }
    let w2 := w1.log (Event.get_worker_node_connstr mmps3.src_node)
    let mmps5 := { mmps4 with dst_connstr := env.get_worker_node_connstr mmps4.dst_node }
    let w3 := w2.log (Event.get_worker_node_connstr mmps4.dst_node)
    if mmps5.dst_connstr = none then
      some ({ mmps5 with result := MoveMPartResult.MOVEMPART_FAILED }, w3)
    else
      match clock_gettime env w3 with
      | none => shmn_elog_fatal
      | some (now, w4) =>
        let mmps6 := { mmps5 with waketm := now }
        let mmps7 := { mmps6 with fd_in_epoll_set := -1 }
        some ({ mmps7 with result := MoveMPartResult.MOVEMPART_IN_PROGRESS }, w4)

/-! ## `exec_move_mpart` -/

/-- The function `exec_move_mpart` of `shard.c`.  Its body is empty: the task is left as it
is, and the value returned is whatever the caller finds in the return register (`junk`). -/
def exec_move_mpart (junk : ExecMoveMPartRes) (mmps : MoveMPartState) :
    ExecMoveMPartRes × MoveMPartState :=
  (junk, mmps)

/-! ## `move_mparts` -/

/-- The locals of `move_mparts` together with the task array it was handed.  The sleeping
list `timeout_states` holds pointers into the array, here indices, head first.  `timeout` is
`none` until the first assignment. -/
structure MoveMPartsState where
  mmpss : List MoveMPartState
  timeout_states : List Nat
  timeout : Option Int
  unfinished_moves : Nat
  epfd : Int
deriving DecidableEq, Repr

/-- The first `for` loop of `move_mparts`, from index `i` on over the rest of the array: every
task whose result is not `MOVEMPART_FAILED` is pushed on the head of the sleeping list and
counted. -/
def move_mparts_collect : List MoveMPartState → Nat → List Nat × Nat → List Nat × Nat
  | [], _, acc => acc
  | mmps :: rest, i, (timeout_states, unfinished_moves) =>
    if mmps.result ≠ MoveMPartResult.MOVEMPART_FAILED then
      move_mparts_collect rest (i + 1) (i :: timeout_states, unfinished_moves + 1)
    else
      move_mparts_collect rest (i + 1) (timeout_states, unfinished_moves)

/-- The tasks the nodes of the sleeping list point to, in list order. -/
def sleeping_tasks (mmpss : List MoveMPartState) (timeout_states : List Nat) :
    List MoveMPartState :=
  timeout_states.filterMap (fun i => mmpss[i]?)

/-- The state of `move_mparts` once the sleeping list is built, before `epoll_create1`. -/
def move_mparts_init (mmpss : List MoveMPartState) : MoveMPartsState :=
  let acc := move_mparts_collect mmpss 0 ([], 0)
  { mmpss := mmpss, timeout_states := acc.1, timeout := none, unfinished_moves := acc.2,
    epfd := 0 }

/-- One run of the body of the `while` loop of `move_mparts`. -/
def move_mparts_body (env : Env) (st : MoveMPartsState) (w : World) :
    Option (MoveMPartsState × World) :=
  match calc_timeout env (sleeping_tasks st.mmpss st.timeout_states) w with
  | none => none
  | some (timeout, w1) =>
    some ({ st with timeout := some timeout, unfinished_moves := st.unfinished_moves - 1 }, w1)

/-- The `while (unfinished_moves > 0)` loop of `move_mparts`, run for at most `fuel`
iterations: the state after the loop ended or after `fuel` iterations, whichever is first. -/
def move_mparts_loop (env : Env) : Nat → MoveMPartsState → World →
    Option (MoveMPartsState × World)
  | 0, st, w => some (st, w)
  | fuel + 1, st, w =>
    if st.unfinished_moves > 0 then
      match move_mparts_body env st w with
      | none => none
      | some (st1, w1) => move_mparts_loop env fuel st1 w1
    else
      some (st, w)

/-- The function `move_mparts` of `shard.c` on the array `mmpss` (its length is `nparts`).
The loop is given `unfinished_moves` iterations of fuel, which is what it needs. -/
def move_mparts (env : Env) (mmpss : List MoveMPartState) (w : World) :
    Option (MoveMPartsState × World) :=
  let st := move_mparts_init mmpss
  let w1 := w.log Event.epoll_create1
  if env.epoll_create1 = -1 then
    shmn_elog_fatal
  else
    move_mparts_loop env st.unfinished_moves { st with epfd := env.epoll_create1 } w1

/-! ## `move_mpart` -/

/-- The C library test `isspace` in the C locale. -/
def isspace (c : Char) : Bool :=
  c = ' ' || c = '\t' || c = '\n' || c = '\x0b' || c = '\x0c' || c = '\r'

/-- The value of a run of decimal digits read left to right, stopping at the first other
character. -/
def atoi_digits : List Char → Int → Int
  | [], acc => acc
  | c :: cs, acc =>
    if c.isDigit then atoi_digits cs (acc * 10 + ((c.toNat : Int) - 48)) else acc

/-- The C library function `atoi`: leading white space, an optional sign, decimal digits; the
result is a C `int`. -/
def atoi (s : String) : Int :=
  match s.toList.dropWhile isspace with
  | '-' :: cs => wrap32 (- atoi_digits cs 0)
  | '+' :: cs => wrap32 (atoi_digits cs 0)
  | cs => wrap32 (atoi_digits cs 0)

/-- The function `move_mpart` of `shard.c`.  `mem` is the memory `palloc` returns for the
task.  An option the command does not carry reads as the empty string.  The result is the
state `move_mparts` ended in (its array holds the one task) and the world, whose trace holds
the status written with `update_cmd_status`. -/
def move_mpart (env : Env) (cmd : Cmd) (mem : MoveMPartState) (w : World) :
    Option (MoveMPartsState × World) :=
  let part_name := cmd.opts.getD 0 ""
  let dst_node := atoi (cmd.opts.getD 1 "")
  match init_mmp_state env mem part_name dst_node w with
  | none => none
  | some (mmps, w1) =>
    match move_mparts env [mmps] w1 with
    | none => none
    | some (st, w2) => some (st, w2.log (Event.update_cmd_status cmd.id "success"))

/-! ## `create_hash_partitions` -/

/-- The outside of `create_hash_partitions` beyond the metadata: the row count `void_spi`
returns for the "already sharded" query, the values of the flags `got_sigusr1` and
`got_sigterm` at the k-th evaluation of the loop condition, whether on the k-th attempt
`PQstatus` is `CONNECTION_OK` and `PQresultStatus` is `PGRES_TUPLES_OK`, and whether the
call of `check_for_sigterm` made after the loop was left at its k-th test comes back to the
caller.  `check_for_sigterm` is declared outside `shard.c`; its body is not among the
sources, so whether it returns or ends the process is left to the environment. -/
structure RetryEnv where
  table_exists : String → Nat
  got_sigusr1 : Nat → Bool
  got_sigterm : Nat → Bool
  conn_ok : Nat → Bool
  res_ok : Nat → Bool
  check_for_sigterm_returns : Nat → Bool

/-- A small cluster: partition `p1` lives on node 1 and `p2` on node 2, nodes 1 to 3 are
known, the clock advances one second per read from second 100, and epoll is available. -/
def cluster : Env :=
  { get_partition_owner := fun p => if p = "p1" then 1 else if p = "p2" then 2 else -1,
    get_worker_node_connstr := fun n =>
      if n = 1 then some "host=n1" else if n = 2 then some "host=n2"
      else if n = 3 then some "host=n3" else none,
    clock := fun k => some ⟨100 + k, 0⟩,
    epoll_create1 := 3 }

/-- The same cluster with a clock whose every read fails. -/
def cluster_broken_clock : Env :=
  { cluster with clock := fun _ => none }

/-- The same cluster with a clock that stands still at second 100. -/
def cluster_frozen_clock : Env :=
  { cluster with clock := fun _ => some ⟨100, 0⟩ }

/-- Freshly allocated task memory holding leftovers. -/
def fresh_mem : MoveMPartState :=
  { part_name := "junk", src_node := 41, dst_node := 42, src_connstr := some "old",
    dst_connstr := none, waketm := ⟨7, 7⟩, fd_to_epoll := 9, fd_in_epoll_set := 5,
    result := MoveMPartResult.MOVEMPART_SUCCESS }

/-- The world before anything has happened. -/
def start_world : World :=
  { clock_reads := 0, trace := [] }

/-- A task sleeping until the given second. -/
def sleeper (name : String) (sec : Int) : MoveMPartState :=
  { part_name := name, src_node := 1, dst_node := 2, src_connstr := some "host=n1",
    dst_connstr := some "host=n2", waketm := ⟨sec, 0⟩, fd_to_epoll := 0,
    fd_in_epoll_set := -1, result := MoveMPartResult.MOVEMPART_IN_PROGRESS }

/-- A task that failed at construction: its partition is unknown. -/
def failed_task (name : String) : MoveMPartState :=
  { fresh_mem with part_name := name, src_node := -1,
                   result := MoveMPartResult.MOVEMPART_FAILED }

/-- The task `init_mmp_state` builds on the small cluster for moving `p1` to node 2 when it
is the first to read the clock. -/
def task_p1 : MoveMPartState :=
  { part_name := "p1", src_node := 1, dst_node := 2, src_connstr := some "host=n1",
    dst_connstr := some "host=n2", waketm := ⟨100, 0⟩, fd_to_epoll := 9,
    fd_in_epoll_set := -1, result := MoveMPartResult.MOVEMPART_IN_PROGRESS }

/-- A retry environment in which the table is not yet sharded, every attempt fails to
connect, and the cancel signal SIGUSR1 is seen at the third test of the loop condition. -/
def canceled_after_two : RetryEnv :=
  { table_exists := fun _ => 0, got_sigusr1 := fun k => decide (2 ≤ k),
    got_sigterm := fun _ => false, conn_ok := fun _ => false, res_ok := fun _ => false,
    check_for_sigterm_returns := fun _ => true }

/-! ## Lemmas on the clock utilities -/

theorem timespeccmp_nonneg_iff (a b : Timespec) : 0 ≤ timespeccmp a b ↔ Timespec.le b a := by
  unfold timespeccmp Timespec.le
  split_ifs <;> constructor <;> intro h <;> omega

theorem Timespec.le_trans {a b c : Timespec} (h1 : Timespec.le a b) (h2 : Timespec.le b c) :
    Timespec.le a c := by
  unfold Timespec.le at *
  omega

theorem clock_gettime_of_reading (env : Env) (w : World) (t : Timespec)
    (h : env.clock w.clock_reads = some t) :
    clock_gettime env w =
      some (t, { clock_reads := w.clock_reads + 1, trace := w.trace ++ [Event.clock_gettime] }) := by
  unfold clock_gettime
  rw [h]

/-! ## Lemmas on `calc_timeout` -/

/-- When every clock read from the current one on succeeds, the scan returns. -/
theorem calc_timeout_loop_returns (env : Env) (l : List MoveMPartState) :
    ∀ (t : Int) (w : World), (∀ k, w.clock_reads ≤ k → (env.clock k).isSome = true) →
      (calc_timeout_loop env l t w).isSome = true := by
  induction l with
  | nil => intro t w _; simp [calc_timeout_loop]
  | cons m rest ih =>
    intro t w hclk
    obtain ⟨now, hnow⟩ := Option.isSome_iff_exists.mp (hclk w.clock_reads (Nat.le_refl _))
    have hrest : ∀ k, w.clock_reads + 1 ≤ k → (env.clock k).isSome = true :=
      fun k hk => hclk k (by omega)
    simp only [calc_timeout_loop, clock_gettime_of_reading env w now hnow]
    split_ifs
    · rfl
    · exact ih _ _ hrest
    · exact ih _ _ hrest

/-- A scan entered with a non-negative `timeout` returns a non-negative value. -/
theorem calc_timeout_loop_nonneg (env : Env) (l : List MoveMPartState) :
    ∀ (t : Int) (w : World) (v : Int) (w1 : World), 0 ≤ t →
      calc_timeout_loop env l t w = some (v, w1) → 0 ≤ v := by
  induction l with
  | nil =>
    intro t w v w1 ht h
    simp only [calc_timeout_loop, Option.some.injEq, Prod.mk.injEq] at h
    omega
  | cons m rest ih =>
    intro t w v w1 ht h
    simp only [calc_timeout_loop] at h
    cases hc : clock_gettime env w with
    | none => simp [hc] at h
    | some p =>
      obtain ⟨curtm, w2⟩ := p
      simp only [hc] at h
      split_ifs at h with h1 h2
      · simp only [Option.some.injEq, Prod.mk.injEq] at h
        omega
      · exact ih _ _ _ _ (le_max_left _ _) h
      · exact ih _ _ _ _ (le_min ht (le_max_left _ _)) h

/-- A scan of a non-empty list entered with `timeout = -1` returns a non-negative value. -/
theorem calc_timeout_loop_cons_nonneg (env : Env) (m : MoveMPartState)
    (rest : List MoveMPartState) (w : World) (v : Int) (w1 : World)
    (h : calc_timeout_loop env (m :: rest) (-1) w = some (v, w1)) : 0 ≤ v := by
  simp only [calc_timeout_loop] at h
  cases hc : clock_gettime env w with
  | none => simp [hc] at h
  | some p =>
    obtain ⟨curtm, w2⟩ := p
    simp only [hc] at h
    split_ifs at h with h1
    · simp only [Option.some.injEq, Prod.mk.injEq] at h
      omega
    · exact calc_timeout_loop_nonneg env rest _ _ _ _ (le_max_left _ _) h

/-- With non-decreasing readings, a task whose wake time is not later than the next reading
makes the scan return 0, whatever `timeout` holds and wherever the task sits. -/
theorem calc_timeout_loop_expired (env : Env) (clk : Nat → Timespec)
    (hclk : ∀ k, env.clock k = some (clk k))
    (hmono : ∀ i j, i ≤ j → Timespec.le (clk i) (clk j))
    (s : MoveMPartState) (l : List MoveMPartState) :
    ∀ (t : Int) (w : World), s ∈ l → Timespec.le s.waketm (clk w.clock_reads) →
      ∃ w1, calc_timeout_loop env l t w = some (0, w1) := by
  induction l with
  | nil => intro t w hs; simp at hs
  | cons m rest ih =>
    intro t w hs hexp
    simp only [calc_timeout_loop, clock_gettime_of_reading env w _ (hclk _)]
    by_cases hm : 0 ≤ timespeccmp (clk w.clock_reads) m.waketm
    · simp [hm]
    · have hsrest : s ∈ rest := by
        rcases List.mem_cons.mp hs with h | h
        · exact absurd ((timespeccmp_nonneg_iff _ _).mpr (h ▸ hexp)) hm
        · exact h
      have hnext : Timespec.le s.waketm (clk (w.clock_reads + 1)) :=
        Timespec.le_trans hexp (hmono _ _ (Nat.le_succ _))
      simp only [ge_iff_le, hm, if_false]
      split_ifs
      · exact ih _ _ hsrest hnext
      · exact ih _ _ hsrest hnext

/-- With a clock that stands still at `now` and no task due, a scan entered with a
non-negative `timeout` returns the smaller of `timeout` and the least clamped difference. -/
theorem calc_timeout_loop_fixed (env : Env) (now : Timespec)
    (hclk : ∀ k, env.clock k = some now) (l : List MoveMPartState) :
    ∀ (t : Int) (w : World), 0 ≤ t → (∀ s ∈ l, ¬ Timespec.le s.waketm now) →
      ∃ v w1, calc_timeout_loop env l t w = some (v, w1) ∧
        (v = t ∨ ∃ s ∈ l, v = max 0 (timespec_diff_millis s.waketm now)) ∧
        v ≤ t ∧ ∀ s ∈ l, v ≤ max 0 (timespec_diff_millis s.waketm now) := by
  induction l with
  | nil =>
    intro t w _ _
    exact ⟨t, w, rfl, Or.inl rfl, le_refl _, by simp⟩
  | cons m rest ih =>
    intro t w ht hno
    have hm : ¬ 0 ≤ timespeccmp now m.waketm := fun h =>
      hno m (List.mem_cons_self _ _) ((timespeccmp_nonneg_iff _ _).mp h)
    have hrest : ∀ s ∈ rest, ¬ Timespec.le s.waketm now :=
      fun s hs => hno s (List.mem_cons_of_mem _ hs)
    have htne : t ≠ -1 := by omega
    simp only [calc_timeout_loop, clock_gettime_of_reading env w now (hclk _), ge_iff_le, hm,
      if_false, htne]
    obtain ⟨v, w1, hv, hmem, hle, hall⟩ :=
      ih (min t (max 0 (timespec_diff_millis m.waketm now))) _
        (le_min ht (le_max_left _ _)) hrest
    refine ⟨v, w1, hv, ?_, le_trans hle (min_le_left _ _), ?_⟩
    · rcases hmem with h | ⟨s, hs, h⟩
      · rcases min_choice t (max 0 (timespec_diff_millis m.waketm now)) with h2 | h2
        · exact Or.inl (h.trans h2)
        · exact Or.inr ⟨m, List.mem_cons_self _ _, h.trans h2⟩
      · exact Or.inr ⟨s, List.mem_cons_of_mem _ hs, h⟩
    · intro s hs
      rcases List.mem_cons.mp hs with h | h
      · rw [h]; exact le_trans hle (min_le_right _ _)
      · exact hall s h

/-- With a clock that stands still at `now` and no task due, `calc_timeout` on a non-empty
list returns the least clamped difference over the list. -/
theorem calc_timeout_fixed (env : Env) (now : Timespec)
    (hclk : ∀ k, env.clock k = some now) (l : List MoveMPartState) (w : World)
    (hne : l ≠ []) (hno : ∀ s ∈ l, ¬ Timespec.le s.waketm now) :
    ∃ v w1, calc_timeout env l w = some (v, w1) ∧
      (∃ s ∈ l, v = max 0 (timespec_diff_millis s.waketm now)) ∧
      ∀ s ∈ l, v ≤ max 0 (timespec_diff_millis s.waketm now) := by
  cases l with
  | nil => exact absurd rfl hne
  | cons m rest =>
    have hm : ¬ 0 ≤ timespeccmp now m.waketm := fun h =>
      hno m (List.mem_cons_self _ _) ((timespeccmp_nonneg_iff _ _).mp h)
    have hrest : ∀ s ∈ rest, ¬ Timespec.le s.waketm now :=
      fun s hs => hno s (List.mem_cons_of_mem _ hs)
    obtain ⟨v, w1, hv, hmem, hle, hall⟩ :=
      calc_timeout_loop_fixed env now hclk rest (max 0 (timespec_diff_millis m.waketm now))
        { clock_reads := w.clock_reads + 1, trace := w.trace ++ [Event.clock_gettime] }
        (le_max_left _ _) hrest
    refine ⟨v, w1, ?_, ?_, ?_⟩
    · simp only [calc_timeout, calc_timeout_loop,
        clock_gettime_of_reading env w now (hclk _), ge_iff_le, hm, if_false, if_true]
      exact hv
    · rcases hmem with h | ⟨s, hs, h⟩
      · exact ⟨m, List.mem_cons_self _ _, h⟩
      · exact ⟨s, List.mem_cons_of_mem _ hs, h⟩
    · intro s hs
      rcases List.mem_cons.mp hs with h | h
      · rw [h]; exact hle
      · exact hall s h

/-! ## Theorems on `calc_timeout` -/

/-- C5: for every sleeping list and every non-decreasing sequence of clock readings, if at
the time `calc_timeout` is called (time `now`, not later than the readings that follow) some
task of the list has a `waketm` that is not later than `now`, then `calc_timeout` returns 0,
wherever the task sits in the list and whatever the wake times of the tasks before it. -/
theorem calc_timeout_zero_when_some_task_due (env : Env) (clk : Nat → Timespec)
    (hclk : ∀ k, env.clock k = some (clk k))
    (hmono : ∀ i j, i ≤ j → Timespec.le (clk i) (clk j))
    (w : World) (now : Timespec) (hnow : Timespec.le now (clk w.clock_reads))
    (before after : List MoveMPartState) (s : MoveMPartState)
    (hdue : Timespec.le s.waketm now) :
    ∃ w1, calc_timeout env (before ++ s :: after) w = some (0, w1) :=
  calc_timeout_loop_expired env clk hclk hmono s (before ++ s :: after) (-1) w
    (by simp) (Timespec.le_trans hdue hnow)

/-- C6 (amended): on the empty sleeping list `calc_timeout` returns -1 without reading the
clock; on every non-empty sleeping list, whatever the clock reads, every value it returns is
greater than or equal to 0; and it does return whenever the clock reads succeed. -/
theorem calc_timeout_nonneg_on_nonempty (env : Env) (l : List MoveMPartState) (w : World) :
    (l = [] → calc_timeout env l w = some (-1, w)) ∧
    (l ≠ [] → ∀ v w1, calc_timeout env l w = some (v, w1) → 0 ≤ v) ∧
    ((∀ k, w.clock_reads ≤ k → (env.clock k).isSome = true) →
      (calc_timeout env l w).isSome = true) := by
  refine ⟨?_, ?_, ?_⟩
  · intro h
    subst h
    rfl
  · intro hne v w1 h
    cases l with
    | nil => exact absurd rfl hne
    | cons m rest => exact calc_timeout_loop_cons_nonneg env m rest w v w1 h
  · intro hclk
    exact calc_timeout_loop_returns env l (-1) w hclk

/-- C7: with the clock standing at a fixed current time `now`: on the empty list
`calc_timeout` returns -1; on a non-empty list none of whose tasks is due (no `waketm` is
at or before `now`) it returns a value `v` that is the clamped millisecond difference
`max 0 (timespec_diff_millis waketm now)` of some task of the list and is less than or equal
to that of every task, and it returns the same `v` on every reordering of the list. -/
theorem calc_timeout_is_min_over_list (env : Env) (now : Timespec)
    (hclk : ∀ k, env.clock k = some now) (l : List MoveMPartState) (w : World) :
    (l = [] → calc_timeout env l w = some (-1, w)) ∧
    (l ≠ [] → (∀ s ∈ l, ¬ Timespec.le s.waketm now) →
      ∃ v w1, calc_timeout env l w = some (v, w1) ∧
        (∃ s ∈ l, v = max 0 (timespec_diff_millis s.waketm now)) ∧
        (∀ s ∈ l, v ≤ max 0 (timespec_diff_millis s.waketm now)) ∧
        ∀ l2 : List MoveMPartState, l2.Perm l → ∃ w2, calc_timeout env l2 w = some (v, w2)) := by
  refine ⟨?_, ?_⟩
  · intro h
    subst h
    rfl
  · intro hne hno
    obtain ⟨v, w1, hv, hmem, hall⟩ := calc_timeout_fixed env now hclk l w hne hno
    refine ⟨v, w1, hv, hmem, hall, ?_⟩
    intro l2 hperm
    have hne2 : l2 ≠ [] := by
      intro h
      subst h
      exact hne (List.Perm.nil_eq hperm).symm
    have hno2 : ∀ s ∈ l2, ¬ Timespec.le s.waketm now :=
      fun s hs => hno s (hperm.mem_iff.mp hs)
    obtain ⟨v2, w2, hv2, hmem2, hall2⟩ := calc_timeout_fixed env now hclk l2 w hne2 hno2
    obtain ⟨s, hs, hsv⟩ := hmem
    obtain ⟨s2, hs2, hsv2⟩ := hmem2
    have h1 : v2 ≤ v := hsv ▸ hall2 s (hperm.mem_iff.mpr hs)
    have h2 : v ≤ v2 := hsv2 ▸ hall s2 (hperm.mem_iff.mp hs2)
    have heq : v2 = v := le_antisymm h1 h2
    exact ⟨w2, heq ▸ hv2⟩

/-! ## Theorems on `init_mmp_state` -/

/-- C3 (amended): for every partition name and destination node id, (1) when
`get_partition_owner` returns -1 the call returns with `result = MOVEMPART_FAILED`, only
`part_name`, `src_node` and `result` written, and no external call but the owner lookup;
(2) when the owner resolves and `get_worker_node_connstr` returns `NULL` for the
destination the call returns with `result = MOVEMPART_FAILED`; (3) in every other case it
returns with `result = MOVEMPART_IN_PROGRESS` provided `clock_gettime` succeeds, and (4)
ends in `FATAL` without returning when `clock_gettime` fails; so (5) whenever it returns,
`result = MOVEMPART_FAILED` if and only if the owner was not found or the destination has
no connection string, and `result = MOVEMPART_IN_PROGRESS` otherwise. -/
theorem init_mmp_state_result (env : Env) (mmps : MoveMPartState) (part_name : String)
    (dst_node : Int) (w : World) :
    (env.get_partition_owner part_name = -1 →
      init_mmp_state env mmps part_name dst_node w =
        some ({ mmps with part_name := part_name, src_node := -1,
                          result := MoveMPartResult.MOVEMPART_FAILED },
              { w with trace := w.trace ++ [Event.get_partition_owner part_name] })) ∧
    (env.get_partition_owner part_name ≠ -1 → env.get_worker_node_connstr dst_node = none →
      ∃ s w1, init_mmp_state env mmps part_name dst_node w = some (s, w1) ∧
        s.result = MoveMPartResult.MOVEMPART_FAILED) ∧
    (env.get_partition_owner part_name ≠ -1 → env.get_worker_node_connstr dst_node ≠ none →
      ∀ now, env.clock w.clock_reads = some now →
        ∃ s w1, init_mmp_state env mmps part_name dst_node w = some (s, w1) ∧
          s.result = MoveMPartResult.MOVEMPART_IN_PROGRESS) ∧
    (env.get_partition_owner part_name ≠ -1 → env.get_worker_node_connstr dst_node ≠ none →
      env.clock w.clock_reads = none →
        init_mmp_state env mmps part_name dst_node w = none) ∧
    (∀ s w1, init_mmp_state env mmps part_name dst_node w = some (s, w1) →
      (s.result = MoveMPartResult.MOVEMPART_FAILED ↔
        (env.get_partition_owner part_name = -1 ∨
          env.get_worker_node_connstr dst_node = none)) ∧
      (s.result ≠ MoveMPartResult.MOVEMPART_FAILED →
        s.result = MoveMPartResult.MOVEMPART_IN_PROGRESS)) := by
  refine ⟨?_, ?_, ?_, ?_, ?_⟩
  · intro ho
    simp [init_mmp_state, ho, World.log]
  · intro ho hd
    simp [init_mmp_state, ho, hd]
  · intro ho hd now hnow
    simp [init_mmp_state, ho, hd, clock_gettime, World.log, hnow]
  · intro ho hd hclk
    simp [init_mmp_state, ho, hd, clock_gettime, World.log, hclk]
  · intro s w1 h
    by_cases ho : env.get_partition_owner part_name = -1
    · simp [init_mmp_state, ho] at h
      simp [← h.1, ho]
    · by_cases hd : env.get_worker_node_connstr dst_node = none
      · simp [init_mmp_state, ho, hd] at h
        simp [← h.1, hd]
      · cases hc : env.clock w.clock_reads with
        | none => simp [init_mmp_state, ho, hd, clock_gettime, World.log, hc] at h
        | some now =>
          simp [init_mmp_state, ho, hd, clock_gettime, World.log, hc] at h
          simp [← h.1, ho, hd]

/-- C4: for every partition whose owner resolves and every destination node whose
connection string resolves, with `now` the reading the clock gives during construction,
`init_mmp_state` returns the task with `result = MOVEMPART_IN_PROGRESS`, `waketm = now`
(so every reading not earlier than `now` finds it due), `fd_in_epoll_set = -1`, `src_node`
the resolved owner, `dst_node` the requested node, and `src_connstr` and `dst_connstr` the
connection strings the metadata returns for those two nodes. -/
theorem init_mmp_state_ready_task (env : Env) (mmps : MoveMPartState) (part_name : String)
    (dst_node : Int) (w : World) (now : Timespec)
    (howner : env.get_partition_owner part_name ≠ -1)
    (hdst : env.get_worker_node_connstr dst_node ≠ none)
    (hnow : env.clock w.clock_reads = some now) :
    ∃ s w1, init_mmp_state env mmps part_name dst_node w = some (s, w1) ∧
      s.result = MoveMPartResult.MOVEMPART_IN_PROGRESS ∧
      s.waketm = now ∧
      (∀ t, Timespec.le now t → timespeccmp t s.waketm ≥ 0) ∧
      s.fd_in_epoll_set = -1 ∧
      s.src_node = env.get_partition_owner part_name ∧
      s.dst_node = dst_node ∧
      s.src_connstr = env.get_worker_node_connstr (env.get_partition_owner part_name) ∧
      s.dst_connstr = env.get_worker_node_connstr dst_node ∧
      s.part_name = part_name := by
  simp only [init_mmp_state, howner, hdst, clock_gettime, World.log, hnow, if_false]
  refine ⟨_, _, rfl, rfl, rfl, ?_, rfl, rfl, rfl, rfl, rfl, rfl⟩
  intro t ht
  exact (timespeccmp_nonneg_iff _ _).mpr ht

/-! ## Lemmas on `move_mparts` -/

/-- One run of the loop body leaves the array, the sleeping list and the epoll descriptor as
they are and takes one off `unfinished_moves`. -/
theorem move_mparts_body_frame (env : Env) (st st1 : MoveMPartsState) (w w1 : World)
    (h : move_mparts_body env st w = some (st1, w1)) :
    st1.mmpss = st.mmpss ∧ st1.timeout_states = st.timeout_states ∧ st1.epfd = st.epfd ∧
      st1.unfinished_moves = st.unfinished_moves - 1 := by
  unfold move_mparts_body at h
  cases hc : calc_timeout env (sleeping_tasks st.mmpss st.timeout_states) w with
  | none => simp [hc] at h
  | some p =>
    simp only [hc, Option.some.injEq, Prod.mk.injEq] at h
    rw [← h.1]
    exact ⟨rfl, rfl, rfl, rfl⟩

/-- The loop leaves the array and the sleeping list as they are. -/
theorem move_mparts_loop_frame (env : Env) :
    ∀ (fuel : Nat) (st st1 : MoveMPartsState) (w w1 : World),
      move_mparts_loop env fuel st w = some (st1, w1) →
        st1.mmpss = st.mmpss ∧ st1.timeout_states = st.timeout_states := by
  intro fuel
  induction fuel with
  | zero =>
    intro st st1 w w1 h
    simp only [move_mparts_loop, Option.some.injEq, Prod.mk.injEq] at h
    rw [← h.1]
    exact ⟨rfl, rfl⟩
  | succ fuel ih =>
    intro st st1 w w1 h
    simp only [move_mparts_loop] at h
    split_ifs at h with hpos
    · cases hb : move_mparts_body env st w with
      | none => simp [hb] at h
      | some p =>
        obtain ⟨st2, w2⟩ := p
        simp only [hb] at h
        obtain ⟨h1, h2⟩ := ih st2 st1 w2 w1 h
        obtain ⟨h3, h4, _, _⟩ := move_mparts_body_frame env st st2 w w2 hb
        exact ⟨h1.trans h3, h2.trans h4⟩
    · simp only [Option.some.injEq, Prod.mk.injEq] at h
      rw [← h.1]
      exact ⟨rfl, rfl⟩

/-- With fuel for `unfinished_moves` iterations the loop ends with `unfinished_moves = 0`. -/
theorem move_mparts_loop_finishes (env : Env) :
    ∀ (fuel : Nat) (st st1 : MoveMPartsState) (w w1 : World),
      st.unfinished_moves ≤ fuel → move_mparts_loop env fuel st w = some (st1, w1) →
        st1.unfinished_moves = 0 := by
  intro fuel
  induction fuel with
  | zero =>
    intro st st1 w w1 hle h
    simp only [move_mparts_loop, Option.some.injEq, Prod.mk.injEq] at h
    rw [← h.1]
    omega
  | succ fuel ih =>
    intro st st1 w w1 hle h
    simp only [move_mparts_loop] at h
    split_ifs at h with hpos
    · cases hb : move_mparts_body env st w with
      | none => simp [hb] at h
      | some p =>
        obtain ⟨st2, w2⟩ := p
        simp only [hb] at h
        obtain ⟨_, _, _, h5⟩ := move_mparts_body_frame env st st2 w w2 hb
        exact ih st2 st1 w2 w1 (by omega) h
    · simp only [Option.some.injEq, Prod.mk.injEq] at h
      rw [← h.1]
      omega

/-- When every clock read succeeds the loop returns. -/
theorem move_mparts_loop_returns (env : Env) (hclk : ∀ k, (env.clock k).isSome = true) :
    ∀ (fuel : Nat) (st : MoveMPartsState) (w : World),
      (move_mparts_loop env fuel st w).isSome = true := by
  intro fuel
  induction fuel with
  | zero => intro st w; rfl
  | succ fuel ih =>
    intro st w
    simp only [move_mparts_loop]
    split_ifs with hpos
    · have hc := calc_timeout_loop_returns env (sleeping_tasks st.mmpss st.timeout_states)
        (-1) w (fun k _ => hclk k)
      obtain ⟨p, hp⟩ := Option.isSome_iff_exists.mp hc
      have hb : move_mparts_body env st w =
          some ({ st with timeout := some p.1, unfinished_moves := st.unfinished_moves - 1 },
            p.2) := by
        unfold move_mparts_body calc_timeout
        rw [hp]
      rw [hb]
      exact ih _ _
    · rfl

/-- When `epoll_create1` and every clock read succeed, `move_mparts` returns. -/
theorem move_mparts_returns (env : Env) (hclk : ∀ k, (env.clock k).isSome = true)
    (hep : env.epoll_create1 ≠ -1) (mmpss : List MoveMPartState) (w : World) :
    (move_mparts env mmpss w).isSome = true := by
  simp only [move_mparts, hep, if_false]
  exact move_mparts_loop_returns env hclk _ _ _

/-- When `move_mparts` returns, the array is as it was handed in and no move is counted as
unfinished. -/
theorem move_mparts_frame (env : Env) (mmpss : List MoveMPartState) (w w1 : World)
    (st : MoveMPartsState) (h : move_mparts env mmpss w = some (st, w1)) :
    st.mmpss = mmpss ∧ st.unfinished_moves = 0 := by
  simp only [move_mparts] at h
  split_ifs at h with hep
  · simp at h
  · exact ⟨(move_mparts_loop_frame env _ _ _ _ _ h).1,
      move_mparts_loop_finishes env (move_mparts_init mmpss).unfinished_moves
        { move_mparts_init mmpss with epfd := env.epoll_create1 } st _ _ (Nat.le_refl _) h⟩

/-- Whatever the command, when `move_mpart` returns, the last call it made is
`update_cmd_status(cmd->id, "success")` and the task is as `init_mmp_state` left it. -/
theorem move_mpart_always_writes_success (env : Env) (cmd : Cmd) (mem : MoveMPartState)
    (w w1 : World) (st : MoveMPartsState)
    (h : move_mpart env cmd mem w = some (st, w1)) :
    w1.trace.getLast? = some (Event.update_cmd_status cmd.id "success") ∧
    ∃ w2, init_mmp_state env mem (cmd.opts.getD 0 "") (atoi (cmd.opts.getD 1 "")) w =
      some (st.mmpss.headD mem, w2) := by
  unfold move_mpart at h
  simp only [] at h
  generalize init_mmp_state env mem (cmd.opts.getD 0 "") (atoi (cmd.opts.getD 1 "")) w = r
    at h ⊢
  cases r with
  | none => simp at h
  | some p =>
    obtain ⟨mmps, w2⟩ := p
    simp only [] at h
    cases hm : move_mparts env [mmps] w2 with
    | none => simp [hm] at h
    | some q =>
      obtain ⟨st2, w3⟩ := q
      simp only [hm, Option.some.injEq, Prod.mk.injEq] at h
      obtain ⟨h1, h2⟩ := h
      subst h1
      subst h2
      have hf := (move_mparts_frame env [mmps] w2 w3 st2 hm).1
      refine ⟨by simp [World.log], w2, ?_⟩
      rw [hf]
      rfl

/-! ## Theorems on `move_mpart` and `move_mparts` -/

/-- C1 (the code at the failing input): for the command "move `p1` to node 99" on a cluster
that has no node 99, `move_mpart` returns with the task's result `MOVEMPART_FAILED` and
the one status written with `update_cmd_status` is "success". -/
theorem move_mpart_unknown_node_status_success :
    (move_mpart cluster { id := 7, opts := ["p1", "99"] } fresh_mem start_world).map
        (fun r => (r.1.mmpss.map (fun t => t.result), r.2.trace)) =
      some ([MoveMPartResult.MOVEMPART_FAILED],
        [Event.get_partition_owner "p1", Event.get_worker_node_connstr 1,
         Event.get_worker_node_connstr 99, Event.epoll_create1,
         Event.update_cmd_status 7 "success"]) := by
  decide

/-- C2 (the code at the failing input): the task `init_mmp_state` builds for moving `p1` to
node 2 is in progress, and `move_mparts` handed that one task returns with
`unfinished_moves = 0` and the task still `MOVEMPART_IN_PROGRESS`. -/
theorem move_mparts_returns_with_task_in_progress :
    (init_mmp_state cluster fresh_mem "p1" 2 start_world).map (fun r => r.1) =
      some task_p1 ∧
    task_p1.result = MoveMPartResult.MOVEMPART_IN_PROGRESS ∧
    (move_mparts cluster [task_p1] start_world).map
        (fun r => (r.1.unfinished_moves, r.1.mmpss)) = some (0, [task_p1]) := by
  decide

/-- C8: for every batch handed to `move_mparts`, every index `i` and every other index `j`,
replacing task `j` by any other task (a failed one for a live one, or a live one for a
failed one) changes nothing about task `i` after `move_mparts` returns: in both runs task
`i` comes back with its result and all its other fields as they were handed in.  Both runs
do return when `epoll_create1` and the clock reads succeed. -/
theorem move_mparts_isolation (env : Env) (w : World) (mmpss : List MoveMPartState)
    (i j : Nat) (hij : j ≠ i) (other : MoveMPartState) :
    (∀ st w1 st2 w2, move_mparts env mmpss w = some (st, w1) →
      move_mparts env (mmpss.set j other) w = some (st2, w2) →
        st2.mmpss[i]? = st.mmpss[i]? ∧ st.mmpss[i]? = mmpss[i]?) ∧
    ((∀ k, (env.clock k).isSome = true) → env.epoll_create1 ≠ -1 →
      (move_mparts env mmpss w).isSome = true ∧
      (move_mparts env (mmpss.set j other) w).isSome = true) := by
  constructor
  · intro st w1 st2 w2 h1 h2
    rw [(move_mparts_frame env _ w w1 st h1).1, (move_mparts_frame env _ w w2 st2 h2).1]
    exact ⟨List.getElem?_set_ne hij, rfl⟩
  · intro hclk hep
    exact ⟨move_mparts_returns env hclk hep _ w, move_mparts_returns env hclk hep _ w⟩

/-- C3 counterexample: on the small cluster with a failing clock, the owner of `p1`
resolves and node 2 has a connection string, yet `init_mmp_state` ends in `FATAL`: it does
not return, and so returns no task with `result = MOVEMPART_IN_PROGRESS`. -/
theorem init_mmp_state_clock_failure :
    cluster_broken_clock.get_partition_owner "p1" ≠ -1 ∧
    cluster_broken_clock.get_worker_node_connstr 2 ≠ none ∧
    init_mmp_state cluster_broken_clock fresh_mem "p1" 2 start_world = none ∧
    ¬ ∃ s w1, init_mmp_state cluster_broken_clock fresh_mem "p1" 2 start_world =
        some (s, w1) ∧ s.result = MoveMPartResult.MOVEMPART_IN_PROGRESS := by
  refine ⟨by decide, by decide, by decide, ?_⟩
  rintro ⟨s, w1, h, _⟩
  have h2 : init_mmp_state cluster_broken_clock fresh_mem "p1" 2 start_world = none := by
    decide
  rw [h2] at h
  exact Option.noConfusion h

/-- C3 witness: an unknown partition, an unknown destination, a resolvable move, and a
resolvable move under a failing clock. -/
theorem init_mmp_state_result_witness :
    cluster.get_partition_owner "p9" = -1 ∧
    init_mmp_state cluster fresh_mem "p9" 2 start_world =
      some ({ fresh_mem with part_name := "p9", src_node := -1,
                             result := MoveMPartResult.MOVEMPART_FAILED },
            { start_world with trace := start_world.trace ++ [Event.get_partition_owner "p9"] }) ∧
    (∃ s w1, init_mmp_state cluster fresh_mem "p1" 99 start_world = some (s, w1) ∧
      s.result = MoveMPartResult.MOVEMPART_FAILED) ∧
    (∃ s w1, init_mmp_state cluster fresh_mem "p1" 2 start_world = some (s, w1) ∧
      s.result = MoveMPartResult.MOVEMPART_IN_PROGRESS) ∧
    init_mmp_state cluster_broken_clock fresh_mem "p1" 2 start_world = none :=
  ⟨by decide,
   (init_mmp_state_result cluster fresh_mem "p9" 2 start_world).1 (by decide),
   (init_mmp_state_result cluster fresh_mem "p1" 99 start_world).2.1 (by decide) (by decide),
   (init_mmp_state_result cluster fresh_mem "p1" 2 start_world).2.2.1 (by decide) (by decide)
     ⟨100, 0⟩ (by decide),
   (init_mmp_state_result cluster_broken_clock fresh_mem "p1" 2 start_world).2.2.2.1
     (by decide) (by decide) (by decide)⟩

/-- C4 witness: moving `p1` to node 2 on the small cluster, the clock reading 100 s. -/
theorem init_mmp_state_ready_task_witness :
    cluster.get_partition_owner "p1" ≠ -1 ∧
    cluster.get_worker_node_connstr 2 ≠ none ∧
    cluster.clock start_world.clock_reads = some ⟨100, 0⟩ ∧
    ∃ s w1, init_mmp_state cluster fresh_mem "p1" 2 start_world = some (s, w1) ∧
      s.result = MoveMPartResult.MOVEMPART_IN_PROGRESS ∧
      s.waketm = ⟨100, 0⟩ ∧
      (∀ t, Timespec.le ⟨100, 0⟩ t → timespeccmp t s.waketm ≥ 0) ∧
      s.fd_in_epoll_set = -1 ∧
      s.src_node = cluster.get_partition_owner "p1" ∧
      s.dst_node = 2 ∧
      s.src_connstr = cluster.get_worker_node_connstr (cluster.get_partition_owner "p1") ∧
      s.dst_connstr = cluster.get_worker_node_connstr 2 ∧
      s.part_name = "p1" :=
  ⟨by decide, by decide, by decide,
   init_mmp_state_ready_task cluster fresh_mem "p1" 2 start_world ⟨100, 0⟩
     (by decide) (by decide) (by decide)⟩

/-- C5 witness: a task due since second 90 sits between two tasks that sleep until seconds
500 and 300; the clock advances one second per read from second 100. -/
theorem calc_timeout_zero_when_some_task_due_witness :
    Timespec.le (sleeper "b" 90).waketm ⟨100, 0⟩ ∧
    ∃ w1, calc_timeout cluster ([sleeper "a" 500] ++ sleeper "b" 90 :: [sleeper "c" 300])
      start_world = some (0, w1) :=
  ⟨by decide,
   calc_timeout_zero_when_some_task_due cluster (fun k => ⟨100 + k, 0⟩) (fun _ => rfl)
     (fun i j h => by
       unfold Timespec.le
       simp only
       omega)
     start_world ⟨100, 0⟩ (by decide) [sleeper "a" 500] [sleeper "c" 300] (sleeper "b" 90)
     (by decide)⟩

/-- C6 counterexample: on the empty sleeping list `calc_timeout` returns -1, which is not
greater than or equal to 0. -/
theorem calc_timeout_empty_list_negative :
    calc_timeout cluster [] start_world = some (-1, start_world) ∧ ¬ ((0 : Int) ≤ -1) := by
  decide

/-- C6 witness: one task sleeping until second 500, the clock at second 100. -/
theorem calc_timeout_nonneg_on_nonempty_witness :
    calc_timeout cluster [] start_world = some (-1, start_world) ∧
    [sleeper "a" 500] ≠ [] ∧
    (∀ v w1, calc_timeout cluster [sleeper "a" 500] start_world = some (v, w1) → 0 ≤ v) ∧
    (calc_timeout cluster [sleeper "a" 500] start_world).isSome = true :=
  ⟨(calc_timeout_nonneg_on_nonempty cluster [] start_world).1 rfl,
   by decide,
   (calc_timeout_nonneg_on_nonempty cluster [sleeper "a" 500] start_world).2.1 (by decide),
   (calc_timeout_nonneg_on_nonempty cluster [sleeper "a" 500] start_world).2.2
     (fun _ _ => rfl)⟩

/-- C7 witness: three tasks sleeping until seconds 500, 101 and 300 with the clock standing
at second 100. -/
theorem calc_timeout_is_min_over_list_witness :
    [sleeper "a" 500, sleeper "b" 101, sleeper "c" 300] ≠ [] ∧
    (∀ s ∈ [sleeper "a" 500, sleeper "b" 101, sleeper "c" 300],
      ¬ Timespec.le s.waketm ⟨100, 0⟩) ∧
    ∃ v w1, calc_timeout cluster_frozen_clock
        [sleeper "a" 500, sleeper "b" 101, sleeper "c" 300] start_world = some (v, w1) ∧
      (∃ s ∈ [sleeper "a" 500, sleeper "b" 101, sleeper "c" 300],
        v = max 0 (timespec_diff_millis s.waketm ⟨100, 0⟩)) ∧
      (∀ s ∈ [sleeper "a" 500, sleeper "b" 101, sleeper "c" 300],
        v ≤ max 0 (timespec_diff_millis s.waketm ⟨100, 0⟩)) ∧
      ∀ l2 : List MoveMPartState,
        l2.Perm [sleeper "a" 500, sleeper "b" 101, sleeper "c" 300] →
          ∃ w2, calc_timeout cluster_frozen_clock l2 start_world = some (v, w2) :=
  ⟨by decide, by decide,
   (calc_timeout_is_min_over_list cluster_frozen_clock ⟨100, 0⟩ (fun _ => rfl)
     [sleeper "a" 500, sleeper "b" 101, sleeper "c" 300] start_world).2
     (by decide) (by decide)⟩

/-- C8 witness: a batch of two live tasks in which the second is replaced by a failed one;
the first comes back unchanged from both runs. -/
theorem move_mparts_isolation_witness :
    (1 : Nat) ≠ 0 ∧
    (∀ st w1 st2 w2,
      move_mparts cluster [task_p1, sleeper "p2" 200] start_world = some (st, w1) →
      move_mparts cluster ([task_p1, sleeper "p2" 200].set 1 (failed_task "p2")) start_world =
        some (st2, w2) →
        st2.mmpss[0]? = st.mmpss[0]? ∧
        st.mmpss[0]? = [task_p1, sleeper "p2" 200][0]?) ∧
    (move_mparts cluster [task_p1, sleeper "p2" 200] start_world).isSome = true ∧
    (move_mparts cluster ([task_p1, sleeper "p2" 200].set 1 (failed_task "p2"))
      start_world).isSome = true :=
  ⟨by decide,
   (move_mparts_isolation cluster start_world [task_p1, sleeper "p2" 200] 0 1 (by decide)
     (failed_task "p2")).1,
   (move_mparts_isolation cluster start_world [task_p1, sleeper "p2" 200] 0 1 (by decide)
     (failed_task "p2")).2 (fun _ => rfl) (by decide)⟩

end Shardman
